import Mathlib

/-
Verification of the market-data acquisition and normalization pipeline of
`src/dash.py` (a crypto live dashboard).  Python numbers are modelled as
rationals (the spec speaks of real numbers); fallible Python expressions
(a `TypeError` from arithmetic on `None`, a `ZeroDivisionError`) are
modelled with `Option`, where `none` stands for a raised exception.
-/

set_option autoImplicit false

namespace CryptoDash

/-- Outcome of one upstream HTTP interaction, as seen by the `try:` block of
either fetch function: `transportFailure` models a `requests` exception
(timeout, connection error), `httpError` models `r.raise_for_status()`
raising on a non-2xx status, `unparseable` models `r.json()` raising on a
malformed body, and `ok` carries the decoded payload. -/
inductive Upstream (α : Type) where
  | transportFailure
  | httpError
  | unparseable
  | ok (payload : α)

/-- A numeric JSON field of one instrument entry: absent from the object,
present but `null`, or present with a numeric value.  This is the shape of
the four fields the snapshot normalizer reads (`usd`, `usd_24h_change`,
`usd_24h_vol`, `usd_market_cap`). -/
inductive PyField where
  | missing
  | null
  | val (q : ℚ)
  deriving DecidableEq

/-- One instrument entry of the decoded `/simple/price` payload
(`metrics` in the loop on line 45 of `src/dash.py`). -/
structure Metrics where
  usd : PyField
  usd_24h_change : PyField
  usd_24h_vol : PyField
  usd_market_cap : PyField
  deriving DecidableEq

/-- Models `metrics.get(key, 0)` (line 46/49): a missing key yields the
default `0`, a key present with JSON `null` yields Python `None`
(modelled `none`), a numeric value yields itself. -/
def pyGet : PyField → Option ℚ
  | .missing => some 0
  | .null => none
  | .val q => some q

/-- Models `metrics.get(key, 0) or 0` (lines 47-48, 57-58): a missing key
gives the default `0`, `None` is falsy and is replaced by `0`, a numeric
value is kept (a numeric `0` is also falsy, and `0 or 0` is `0`). -/
def pyGetOr0 : PyField → ℚ
  | .missing => 0
  | .null => 0
  | .val q => q

/-- Denominator of the sparkline comprehension on line 51 of `src/dash.py`
at step `i`: `1 + change_pct/100 * (i/6)` (Python 3 `/` is exact division
on these operands in the real-number model). -/
def sparkDenom (change_pct : ℚ) (i : ℕ) : ℚ :=
  1 + change_pct / 100 * ((i : ℚ) / 6)

/-- The steps of `range(6, -1, -1)` on line 51 of `src/dash.py`:
`6, 5, 4, 3, 2, 1, 0`. -/
def sparkSteps : List ℕ :=
  (List.range 7).reverse

/-- The comprehension body over a list of steps: each step divides by
`sparkDenom`; a zero denominator raises `ZeroDivisionError`, which aborts
the whole comprehension (`none`). -/
def synthRun (last_price change_pct : ℚ) : List ℕ → Option (List ℚ)
  | [] => some []
  | i :: rest =>
    if sparkDenom change_pct i = 0 then none
    else
      match synthRun last_price change_pct rest with
      | none => none
      | some xs => some (last_price / sparkDenom change_pct i :: xs)

/-- Models the comprehension on line 51 of `src/dash.py`:
`[last_price / (1 + change_pct/100 * (i/6)) for i in range(6, -1, -1)]`,
producing the 7 quotients oldest first, or `none` if any denominator is
zero (`ZeroDivisionError`). -/
def synthesize_sparkline (last_price change_pct : ℚ) : Option (List ℚ) :=
  synthRun last_price change_pct sparkSteps

/-- One row of the live-snapshot table built on lines 52-60 of
`src/dash.py`.  The sparkline list is stored under the column name `open`
in the source; `spark` here, since `open` is reserved in Lean. -/
structure LiveRow where
  id : String
  ticker : String
  last_price : ℚ
  change_pct : ℚ
  volume : ℚ
  market_cap : ℚ
  spark : List ℚ
  deriving DecidableEq

/-- Processing of one instrument entry (lines 46-60 of `src/dash.py`).
`last_price = metrics.get("usd", 0)` has no `or 0`, so a `null` price
becomes Python `None` and the sparkline expression `None / ...` raises
`TypeError` (modelled `none`); a zero sparkline denominator raises
`ZeroDivisionError` (modelled `none`).  The remaining fields cannot raise:
`usd_24h_change`, `usd_24h_vol` and `usd_market_cap` all go through
`... or 0`, and `float(...)` on a number succeeds. -/
def processEntry (tick : String) (m : Metrics) : Option LiveRow :=
  match pyGet m.usd with
  | none => none
  | some last_price =>
    let change_pct := pyGetOr0 m.usd_24h_change
    match synthesize_sparkline last_price change_pct with
    | none => none
    | some sparkline =>
      some
        { id := tick
          ticker := tick.toUpper
          last_price := last_price
          change_pct := change_pct
          volume := pyGetOr0 m.usd_24h_vol
          market_cap := pyGetOr0 m.usd_market_cap
          spark := sparkline }

/-- The loop on lines 44-60 of `src/dash.py`: entries are processed in
order and appended to `data`; an exception raised while processing any
entry aborts the whole `try:` block, modelled by the `Option` failing as a
whole (`none`). -/
def normalize_snapshot : List (String × Metrics) → Option (List LiveRow)
  | [] => some []
  | (tick, m) :: rest =>
    match processEntry tick m with
    | none => none
    | some row =>
      match normalize_snapshot rest with
      | none => none
      | some rows => some (row :: rows)

/-- `fetch_live_prices` (lines 30-63 of `src/dash.py`), as a function of the
upstream interaction's outcome.  Any failure inside the `try:` block —
transport failure, non-2xx status, unparseable body, or an exception while
normalizing the payload — is caught by the bare `except:` and yields an
empty DataFrame (`[]`). -/
def fetch_live_prices (r : Upstream (List (String × Metrics))) : List LiveRow :=
  match r with
  | .ok entries =>
    match normalize_snapshot entries with
    | none => []
    | some rows => rows
  | _ => []

/-- One `(timestamp, value)` sample of the `prices` or `total_volumes`
series of the `/market_chart` payload (lines 73-74 of `src/dash.py`).
`pd.to_datetime(ts, unit="ms")` is an injective map of the integer
timestamp, so the `date` column is modelled by the timestamp itself; a
JSON `null` value becomes a pandas `NaN`, modelled `none`. -/
structure Sample where
  ts : ℤ
  val : Option ℚ
  deriving DecidableEq

/-- The decoded `/market_chart` payload: `data.get("prices", [])` and
`data.get("total_volumes", [])` (lines 73-74), a missing key yielding the
empty list. -/
structure HistPayload where
  prices : List Sample
  total_volumes : List Sample

/-- One row of `prices.merge(vols, on="date")` (line 79): a pandas inner
merge that, for each left (price) row in order, emits one output row per
volume row with an equal date, preserving left then right order. -/
structure MergedRow where
  ts : ℤ
  close : Option ℚ
  volume : Option ℚ
  deriving DecidableEq

/-- Line 79: the inner merge of the price frame with the volume frame on
the (injectively encoded) date column. -/
def mergeOnDate (prices vols : List Sample) : List MergedRow :=
  prices.flatMap fun p =>
    (vols.filter fun v => v.ts = p.ts).map fun v => ⟨p.ts, p.val, v.val⟩

/-- Row-wise `df[["open", "close"]].max(axis=1)` (line 81): pandas skips
`NaN` entries, so a single non-null operand is returned as-is, and only
two nulls give null.  `max a b` on reals is `if a ≤ b then b else a`. -/
def pdMax (a b : Option ℚ) : Option ℚ :=
  match a, b with
  | none, none => none
  | some x, none => some x
  | none, some y => some y
  | some x, some y => some (if x ≤ y then y else x)

/-- Row-wise `df[["open", "close"]].min(axis=1)` (line 82), with the same
`NaN`-skipping rule as `pdMax`. -/
def pdMin (a b : Option ℚ) : Option ℚ :=
  match a, b with
  | none, none => none
  | some x, none => some x
  | none, some y => some y
  | some x, some y => some (if x ≤ y then x else y)

/-- A surviving OHLCV row after line 83's column projection and `dropna`:
every field is non-null.  The source column `open` is `opn` here (`open`
is reserved in Lean); the projection on line 83 keeps exactly these five
columns — the timestamp/date columns are dropped. -/
structure Bar where
  opn : ℚ
  high : ℚ
  low : ℚ
  close : ℚ
  volume : ℚ
  deriving DecidableEq

/-- Lines 80-83 applied to one merged row, given `sh`, the value
`df["close"].shift(1)` puts in this row (the previous row's close, or null
for the first row): `open = sh` filled with the row's own close where
null (`fillna(df["close"])`), `high`/`low` the null-skipping row-wise
max/min of open and close, then `dropna` turns any row that still has a
null field into no row (`none`). -/
def rowBar (r : MergedRow) (sh : Option ℚ) : Option Bar :=
  let o : Option ℚ :=
    match sh with
    | none => r.close
    | some x => some x
  match o, pdMax o r.close, pdMin o r.close, r.close, r.volume with
  | some ov, some hv, some lv, some cv, some vv =>
    some ⟨ov, hv, lv, cv, vv⟩
  | _, _, _, _, _ => none

/-- Lines 80-83 over the whole merged frame.  `df["close"].shift(1)` gives
row `i` the close of row `i-1`; the recursion carries that shifted-in
value, starting from `none` (the first row's shift is `NaN`). -/
def mkRows (sh : Option ℚ) : List MergedRow → List (Option Bar)
  | [] => []
  | r :: rest => rowBar r sh :: mkRows r.close rest

/-- The `dropna` on line 83 removes the null rows but keeps each surviving
row's original positional index label (the merge result's RangeIndex
`0, 1, 2, ...`); the argument `i` is the label of the first row of the
remaining list. -/
def dropnaFrom (i : ℤ) : List (Option Bar) → List (ℤ × Bar)
  | [] => []
  | none :: rest => dropnaFrom (i + 1) rest
  | some b :: rest => (i, b) :: dropnaFrom (i + 1) rest

/-- Line 84 tests `df.index is not None`; a pandas DataFrame's index is
never `None`, so the test is always true. -/
def dfIndexIsSomething : Bool := true

/-- Line 84, `df.index = df.index if df.index is not None else df["date"]`:
since the index is never `None`, the positional index produced by the
merge is kept (and the `date` column was already discarded by line 83's
projection, so the `else` branch could not run meaningfully anyway). -/
def applyLine84 (index : List (ℤ × Bar)) : List (ℤ × Bar) :=
  if dfIndexIsSomething then index else []

/-- The normalization inside the `try:` of `fetch_historical_market_chart`
(lines 73-85 of `src/dash.py`): build the two frames, return an empty
frame if either is empty (lines 75-76), merge on date, derive
open/high/low, project and `dropna`, apply the (no-op) index assignment.
Each output element is an (index label, row) pair. -/
def normalize_history (prices vols : List Sample) : List (ℤ × Bar) :=
  if prices.isEmpty || vols.isEmpty then []
  else applyLine84 (dropnaFrom 0 (mkRows none (mergeOnDate prices vols)))

/-- `fetch_historical_market_chart` (lines 65-87 of `src/dash.py`), as a
function of the upstream interaction's outcome.  Any failure inside the
`try:` block is caught by the bare `except:` and yields the empty
DataFrame (`[]`); the pandas pipeline itself is total on a decoded
payload. -/
def fetch_historical_market_chart (r : Upstream HistPayload) : List (ℤ × Bar) :=
  match r with
  | .ok d => normalize_history d.prices d.total_volumes
  | _ => []

/-- A Python value that reaches `build_sparkline(series)` in the app: the
`open` column holds a Python list (built by the comprehension on line 51),
and a pandas Series is the other series-like shape a caller could pass. -/
inductive SeriesArg where
  | pyList (xs : List ℚ)
  | pdSeries (xs : List ℚ)

/-- The attribute names such a value exposes (the ones relevant to the
guard): both Python lists and pandas Series implement iteration through
the dunder `__iter__`; neither has an attribute literally named `iter`. -/
def pyAttrs : SeriesArg → List String
  | .pyList _ => ["__iter__", "__len__", "__getitem__", "append", "extend", "count"]
  | .pdSeries _ => ["__iter__", "__len__", "__getitem__", "values", "iloc", "loc"]

/-- Python's `hasattr(series, name)` for such a value. -/
def hasattr (s : SeriesArg) (name : String) : Bool :=
  (pyAttrs s).contains name

/-- `list(series)` for such a value. -/
def seriesToList : SeriesArg → List ℚ
  | .pyList xs => xs
  | .pdSeries xs => xs

/-- Lines 92-94 of `src/dash.py`: the y-series `build_sparkline` hands to
the plot.  `y = list(series) if hasattr(series, "iter") else [0,0]`, then
`if len(y) < 2: y=[0,0]`. -/
def build_sparkline_y (series : SeriesArg) : List ℚ :=
  let y := if hasattr series "iter" then seriesToList series else [0, 0]
  if y.length < 2 then [0, 0] else y

/-- TTL of the `@st.cache_data` decorator on `fetch_live_prices`
(line 30 of `src/dash.py`). -/
def liveTTL : ℕ := 60

/-- TTL of the `@st.cache_data` decorator on
`fetch_historical_market_chart` (line 65 of `src/dash.py`). -/
def histTTL : ℕ := 3600

/-- One cache slot: the memoized result and the time it was stored. -/
structure CacheEntry (α : Type) where
  value : α
  storedAt : ℕ
  deriving DecidableEq

/-- Lookup of a key in the cache store (first match wins, so consing a new
entry for a key replaces the old one). -/
def lookupKey {κ α : Type} [DecidableEq κ] :
    List (κ × CacheEntry α) → κ → Option (CacheEntry α)
  | [], _ => none
  | (k', e) :: rest, k => if k' = k then some e else lookupKey rest k

/-- Result of one call through the cache: the value returned to the
caller, the cache store afterwards, and whether an underlying network
call was made. -/
structure CallResult (κ α : Type) where
  value : α
  store : List (κ × CacheEntry α)
  networkCall : Bool
  deriving DecidableEq

/-- Modelled from the spec: `st.cache_data(ttl=...)` is streamlit library
code, not part of this repository.  Per the spec's Cache Layer contract,
each decorated fetch is memoized under a key derived from its full
argument tuple (`κ`); a cached result younger than the TTL is returned
verbatim with no network call, and otherwise the underlying fetch
(`oracle`, indexed by key and call time) runs once and its result replaces
the cached entry. -/
def cachedCall {κ α : Type} [DecidableEq κ] (ttl : ℕ) (oracle : κ → ℕ → α)
    (store : List (κ × CacheEntry α)) (k : κ) (now : ℕ) : CallResult κ α :=
  match lookupKey store k with
  | some e =>
    if now - e.storedAt < ttl then ⟨e.value, store, false⟩
    else ⟨oracle k now, (k, ⟨oracle k now, now⟩) :: store, true⟩
  | none => ⟨oracle k now, (k, ⟨oracle k now, now⟩) :: store, true⟩

/-- Spec-side join, following the spec's words for the historical path:
join the price and volume series strictly on exact timestamp match (inner
join), producing `(timestamp, price, volume)` triples. -/
def specJoin (prices vols : List (ℤ × ℚ)) : List (ℤ × ℚ × ℚ) :=
  prices.flatMap fun p =>
    (vols.filter fun v => v.1 = p.1).map fun v => (p.1, p.2, v.2)

/-- Spec-side OHLC reconstruction, following the spec's words: `close` is
the sampled price, `open` is the immediately preceding bar's close (the
first bar's open is its own close, carried in `prev`), `high = max(open,
close)`, `low = min(open, close)`, `volume` the matched volume sample. -/
def specOHLC (prev : Option ℚ) : List (ℤ × ℚ × ℚ) → List Bar
  | [] => []
  | (_, p, v) :: rest =>
    ⟨prev.getD p, max (prev.getD p) p, min (prev.getD p) p, p, v⟩ ::
      specOHLC (some p) rest

/-- Spec-side historical normalization: the join followed by the OHLC
reconstruction. -/
def specBars (prices vols : List (ℤ × ℚ)) : List Bar :=
  specOHLC none (specJoin prices vols)

/-- Lifts a non-null `(timestamp, value)` series into the payload sample
shape. -/
def toSamples (l : List (ℤ × ℚ)) : List Sample :=
  l.map fun x => ⟨x.1, some x.2⟩

/-- Lifts a spec-side joined triple into the merged-row shape the pandas
pipeline works on. -/
def liftJoined (r : ℤ × ℚ × ℚ) : MergedRow :=
  ⟨r.1, some r.2.1, some r.2.2⟩

/-- Whether an upstream interaction failed before producing a decoded
payload (transport failure, non-2xx status, or unparseable body). -/
def Upstream.isFailure {α : Type} : Upstream α → Bool
  | .ok _ => false
  | _ => true

theorem synthRun_of_nonzero (p c : ℚ) :
    ∀ L : List ℕ, (∀ i ∈ L, sparkDenom c i ≠ 0) →
      synthRun p c L = some (L.map fun i => p / sparkDenom c i) := by
  intro L
  induction L with
  | nil => intro _; rfl
  | cons i rest ih =>
    intro h
    have hi : sparkDenom c i ≠ 0 := h i (List.mem_cons_self i rest)
    have hrest := ih fun j hj => h j (List.mem_cons_of_mem i hj)
    simp [synthRun, hi, hrest]

theorem mem_sparkSteps_le {i : ℕ} (hi : i ∈ sparkSteps) : i ≤ 6 := by
  rw [show sparkSteps = [6, 5, 4, 3, 2, 1, 0] from rfl] at hi
  fin_cases hi <;> decide

theorem sparkDenom_neg100_six : sparkDenom (-100) 6 = 0 := by
  norm_num [sparkDenom]

theorem synthesize_sparkline_neg100 (p : ℚ) :
    synthesize_sparkline p (-100) = none := by
  rw [synthesize_sparkline, show sparkSteps = 6 :: [5, 4, 3, 2, 1, 0] from rfl]
  simp [synthRun, sparkDenom_neg100_six]

theorem filter_toSamples (t : ℤ) (V : List (ℤ × ℚ)) :
    (toSamples V).filter (fun v => v.ts = t) =
      ((V.filter fun v => v.1 = t).map fun x => Sample.mk x.1 (some x.2)) := by
  induction V with
  | nil => rfl
  | cons v rest ih =>
    by_cases hv : v.1 = t
    · simp [toSamples, List.filter, hv] at ih ⊢
      exact ih
    · simp [toSamples, List.filter, hv] at ih ⊢
      exact ih

theorem mergeOnDate_toSamples (P V : List (ℤ × ℚ)) :
    mergeOnDate (toSamples P) (toSamples V) = (specJoin P V).map liftJoined := by
  induction P with
  | nil => rfl
  | cons p rest ih =>
    simp only [toSamples, List.map_cons, mergeOnDate, List.flatMap_cons, specJoin,
      List.map_append] at ih ⊢
    have hf := filter_toSamples p.1 V
    simp only [toSamples] at hf
    rw [hf]
    simp [List.map_map, liftJoined, Function.comp, ih]

theorem rowBar_liftJoined (r : ℤ × ℚ × ℚ) (prev : Option ℚ) :
    rowBar (liftJoined r) prev =
      some ⟨prev.getD r.2.1, max (prev.getD r.2.1) r.2.1,
        min (prev.getD r.2.1) r.2.1, r.2.1, r.2.2⟩ := by
  cases prev with
  | none => simp [liftJoined, rowBar, pdMax, pdMin, Option.getD]
  | some q =>
    simp [liftJoined, rowBar, pdMax, pdMin, Option.getD, max_def, min_def]

theorem mkRows_map_liftJoined :
    ∀ (J : List (ℤ × ℚ × ℚ)) (prev : Option ℚ),
      mkRows prev (J.map liftJoined) = (specOHLC prev J).map some := by
  intro J
  induction J with
  | nil => intro _; rfl
  | cons r rest ih =>
    intro prev
    obtain ⟨t, p, v⟩ := r
    simp only [List.map_cons, mkRows, specOHLC]
    rw [rowBar_liftJoined (t, p, v) prev,
      show (liftJoined (t, p, v)).close = some p from rfl, ih (some p)]

theorem dropnaFrom_map_some :
    ∀ (bs : List Bar) (i : ℤ),
      (dropnaFrom i (bs.map some)).map Prod.snd = bs := by
  intro bs
  induction bs with
  | nil => intro _; rfl
  | cons b rest ih =>
    intro i
    simp only [List.map_cons, dropnaFrom]
    rw [ih (i + 1)]

theorem specJoin_nil_right (P : List (ℤ × ℚ)) : specJoin P [] = [] := by
  induction P with
  | nil => rfl
  | cons p rest ih => simp [specJoin, List.filter]

theorem normalize_snapshot_none_of_mem :
    ∀ (entries : List (String × Metrics)) (t : String) (m : Metrics),
      (t, m) ∈ entries → processEntry t m = none →
      normalize_snapshot entries = none := by
  intro entries
  induction entries with
  | nil => intro t m hmem _; cases hmem
  | cons e rest ih =>
    intro t m hmem hnone
    rcases List.mem_cons.mp hmem with heq | hrest
    · obtain ⟨t', m'⟩ := e
      obtain ⟨h1, h2⟩ := Prod.mk.injEq .. ▸ heq
      simp only [normalize_snapshot]
      rw [show processEntry t' m' = none from h1 ▸ h2 ▸ hnone]
    · obtain ⟨t', m'⟩ := e
      simp only [normalize_snapshot]
      cases hpe : processEntry t' m' with
      | none => rfl
      | some row => rw [ih t m hrest hnone]

/-- C1: the claim says the division by zero in
`last_price / (1 + change_pct/100 * (i/6))` at `i = 6` is guarded
(clamped or special-cased) for `change_pct = -100`, so sparkline
synthesis completes without an arithmetic error.  The code has no such
guard: this theorem evaluates the embedded line 51 at the failing input
`last_price = 100, change_pct = -100` and shows the `i = 6` denominator
is exactly zero, the synthesis raises (`none`), and the enclosing
`fetch_live_prices` consequently returns the empty table. -/
theorem C1_sparkline_div_by_zero_unguarded :
    sparkDenom (-100) 6 = 0 ∧
    synthesize_sparkline 100 (-100) = none ∧
    fetch_live_prices
      (.ok [("bitcoin", ⟨.val 100, .val (-100), .val 5, .val 6⟩)]) = [] := by
  refine ⟨sparkDenom_neg100_six, synthesize_sparkline_neg100 100, ?_⟩
  simp [fetch_live_prices, normalize_snapshot, processEntry, pyGet, pyGetOr0,
    synthesize_sparkline_neg100]

/-- C2: every upstream outcome that is a transport failure, a non-2xx
status, or an unparseable payload makes both fetch operations return the
empty table/sequence.  The embedded fetch functions are total (Lean
functions cannot raise), which models the claim's "no exception ever
propagates": every failure is collapsed to `[]` by the bare `except:`. -/
theorem C2_upstream_failure_yields_empty :
    (∀ r : Upstream (List (String × Metrics)),
      r.isFailure = true → fetch_live_prices r = []) ∧
    (∀ r : Upstream HistPayload,
      r.isFailure = true → fetch_historical_market_chart r = []) := by
  constructor
  · intro r h
    cases r with
    | ok payload => simp [Upstream.isFailure] at h
    | transportFailure => rfl
    | httpError => rfl
    | unparseable => rfl
  · intro r h
    cases r with
    | ok payload => simp [Upstream.isFailure] at h
    | transportFailure => rfl
    | httpError => rfl
    | unparseable => rfl

/-- Witness for C2 at concrete failure outcomes. -/
theorem C2_upstream_failure_yields_empty_witness :
    fetch_live_prices (Upstream.transportFailure) = [] ∧
    fetch_historical_market_chart (Upstream.unparseable) = [] :=
  ⟨C2_upstream_failure_yields_empty.1 Upstream.transportFailure rfl,
   C2_upstream_failure_yields_empty.2 Upstream.unparseable rfl⟩

/-- C6: the claim says each output bar of the historical normalization
carries its timestamp and the output is ordered by strictly increasing
timestamp.  The code drops the timestamp: line 83's projection keeps only
`open, high, low, close, volume`, and line 84's
`df.index = df.index if df.index is not None else df["date"]` always
takes the first branch (a DataFrame index is never `None`), keeping the
positional RangeIndex.  At the failing input — one price sample and one
volume sample, both at timestamp 1000 — the single output row is labelled
by position `0`, not by its timestamp `1000`, and holds no timestamp
field. -/
theorem C6_bars_carry_position_not_timestamp :
    normalize_history [⟨1000, some 10⟩] [⟨1000, some 5⟩] =
      [((0 : ℤ), ⟨10, 10, 10, 10, 5⟩)] ∧
    (0 : ℤ) ≠ 1000 := by
  exact ⟨by decide, by decide⟩

/-- C7: if either the price series or the volume series of a historical
payload is empty, the normalization returns the empty sequence
immediately (lines 75-76 of `src/dash.py`), and so does the surrounding
fetch. -/
theorem C7_empty_series_yields_empty (prices vols : List Sample)
    (h : prices = [] ∨ vols = []) :
    normalize_history prices vols = [] ∧
    fetch_historical_market_chart (.ok ⟨prices, vols⟩) = [] := by
  have hempty : (prices.isEmpty || vols.isEmpty) = true := by
    rcases h with h | h <;> simp [h]
  constructor
  · simp [normalize_history, hempty]
  · simp [fetch_historical_market_chart, normalize_history, hempty]

/-- Witness for C7: a payload with volumes but no prices yields the empty
sequence. -/
theorem C7_empty_series_yields_empty_witness :
    normalize_history [] [⟨1, some 2⟩] = [] ∧
    fetch_historical_market_chart (.ok ⟨[], [⟨1, some 2⟩]⟩) = [] :=
  C7_empty_series_yields_empty [] [⟨1, some 2⟩] (Or.inl rfl)

/-- C10: for every series-like value reaching `build_sparkline` — a
Python list (such as the synthesized 7-element spark series) or a pandas
Series — the guard `hasattr(series, "iter")` on line 93 is false (those
types implement `__iter__`, not an attribute literally named `iter`), so
the plotted y-series is always `[0, 0]` and the input values never
influence it. -/
theorem C10_build_sparkline_always_flat :
    ∀ series : SeriesArg, build_sparkline_y series = [0, 0] := by
  intro series
  cases series <;> rfl

/-- C3: for every pair of (non-null) price and volume sample series, the
historical normalization equals the spec's description — a strict inner
join on exact timestamp match, with `close` the sampled price, `open` the
immediately preceding bar's close (the first bar's open its own close),
`high = max(open, close)`, `low = min(open, close)` — and on the claim's
concrete example (prices at timestamps 1 and 2, volumes at 1 and 3) the
result is exactly one bar, at the position of timestamp 1, with
`open = high = low = close = 10` and `volume = 5`. -/
theorem C3_history_join_refines_spec :
    (∀ P V : List (ℤ × ℚ),
      (normalize_history (toSamples P) (toSamples V)).map Prod.snd =
        specBars P V) ∧
    normalize_history (toSamples [(1, 10), (2, 20)]) (toSamples [(1, 5), (3, 9)]) =
      [((0 : ℤ), ⟨10, 10, 10, 10, 5⟩)] := by
  constructor
  · intro P V
    by_cases hP : P = []
    · subst hP
      simp [normalize_history, toSamples, specBars, specJoin, specOHLC]
    · by_cases hV : V = []
      · subst hV
        simp [normalize_history, toSamples, specBars, specJoin_nil_right, specOHLC]
      · have h1 : (toSamples P).isEmpty = false := by
          cases P with
          | nil => exact absurd rfl hP
          | cons a l => rfl
        have h2 : (toSamples V).isEmpty = false := by
          cases V with
          | nil => exact absurd rfl hV
          | cons a l => rfl
        rw [normalize_history, if_neg (by simp [h1, h2])]
        rw [show applyLine84 = fun x => x from rfl]
        rw [mergeOnDate_toSamples, mkRows_map_liftJoined, specBars,
          dropnaFrom_map_some]
  · decide

/-- C4: with all denominators nonzero, the synthesized sparkline is
exactly the 7 quotients `last_price / (1 + change_pct/100 * (i/6))` for
`i = 6` down to `0`, ending exactly in `last_price`;
`synthesize_sparkline 100 10` is a 7-element non-decreasing sequence
ending in exactly `100`; and `change_pct = 0` gives the flat 7-element
sequence at `last_price`. -/
theorem C4_sparkline_formula :
    (∀ p c : ℚ, (∀ i : ℕ, i ≤ 6 → sparkDenom c i ≠ 0) →
      synthesize_sparkline p c =
        some (sparkSteps.map fun i => p / sparkDenom c i) ∧
      (sparkSteps.map fun i => p / sparkDenom c i).getLast? = some p ∧
      (sparkSteps.map fun i => p / sparkDenom c i).length = 7) ∧
    (∃ l : List ℚ, synthesize_sparkline 100 10 = some l ∧ l.length = 7 ∧
      List.Chain' (fun a b => a ≤ b) l ∧ l.getLast? = some 100) ∧
    (∀ p : ℚ, synthesize_sparkline p 0 = some (List.replicate 7 p)) := by
  refine ⟨?_, ?_, ?_⟩
  · intro p c h
    have hmem : ∀ i ∈ sparkSteps, sparkDenom c i ≠ 0 :=
      fun i hi => h i (mem_sparkSteps_le hi)
    refine ⟨synthRun_of_nonzero p c sparkSteps hmem, ?_, ?_⟩
    · rw [show sparkSteps = [6, 5, 4, 3, 2, 1, 0] from rfl]
      simp only [List.map_cons, List.map_nil, List.getLast?_cons_cons,
        List.getLast?_singleton, Option.some.injEq]
      norm_num [sparkDenom]
    · rw [show sparkSteps = [6, 5, 4, 3, 2, 1, 0] from rfl]
      rfl
  · have hmem : ∀ i ∈ sparkSteps, sparkDenom 10 i ≠ 0 := by
      intro i hi
      have := mem_sparkSteps_le hi
      interval_cases i <;> norm_num [sparkDenom]
    refine ⟨[1000/11, 1200/13, 375/4, 2000/21, 3000/31, 6000/61, 100],
      ?_, by norm_num, ?_, ?_⟩
    · rw [synthesize_sparkline, synthRun_of_nonzero 100 10 sparkSteps hmem,
        show sparkSteps = [6, 5, 4, 3, 2, 1, 0] from rfl]
      simp only [List.map_cons, List.map_nil, Option.some.injEq, List.cons.injEq]
      norm_num [sparkDenom]
    · simp only [List.chain'_cons, List.chain'_singleton, and_true]
      norm_num
    · rfl
  · intro p
    have h1 : ∀ i : ℕ, sparkDenom 0 i = 1 := by
      intro i
      simp [sparkDenom]
    rw [synthesize_sparkline, show sparkSteps = [6, 5, 4, 3, 2, 1, 0] from rfl]
    simp [synthRun, h1, List.replicate]

/-- Witness for C4 at `last_price = 100, change_pct = 10`, where every
denominator is nonzero. -/
theorem C4_sparkline_formula_witness :
    synthesize_sparkline 100 10 =
      some (sparkSteps.map fun i => (100 : ℚ) / sparkDenom 10 i) :=
  (C4_sparkline_formula.1 100 10 (by
    intro i hi
    interval_cases i <;> norm_num [sparkDenom])).1

/-- C5: the claim says every missing *or null* numeric field of an
instrument entry normalizes to 0.  That fails for a null `usd`:
`metrics.get("usd", 0)` (line 46) has no `or 0`, so a JSON `null` price
becomes Python `None`, the sparkline expression on line 51 raises
`TypeError`, and the whole snapshot collapses to the empty table — no row
with `last_price = 0` is produced.  This counterexample evaluates the
embedded code at such an entry. -/
theorem C5_null_usd_not_defaulted :
    processEntry "bitcoin" ⟨.null, .val 5, .val 6, .val 7⟩ = none ∧
    fetch_live_prices (.ok [("bitcoin", ⟨.null, .val 5, .val 6, .val 7⟩)]) = [] := by
  have h : processEntry "bitcoin" ⟨.null, .val 5, .val 6, .val 7⟩ = none := by
    simp [processEntry, pyGet]
  exact ⟨h, by simp [fetch_live_prices, normalize_snapshot, h]⟩

/-- C5 as amended: for an entry whose `usd` field is missing or numeric
(not null), and whose sparkline denominators are nonzero, normalization
produces the row with a missing `usd` defaulted to 0, a missing-or-null
`usd_24h_change`, `usd_24h_vol`, `usd_market_cap` defaulted to 0, and all
fields numeric; in particular a null or missing `usd_24h_change` yields
`change_pct = 0` exactly. -/
theorem C5_amended_field_defaults (tick : String) (m : Metrics)
    (husd : m.usd ≠ PyField.null)
    (hden : ∀ i : ℕ, i ≤ 6 → sparkDenom (pyGetOr0 m.usd_24h_change) i ≠ 0) :
    processEntry tick m =
      some
        { id := tick
          ticker := tick.toUpper
          last_price := (pyGet m.usd).getD 0
          change_pct := pyGetOr0 m.usd_24h_change
          volume := pyGetOr0 m.usd_24h_vol
          market_cap := pyGetOr0 m.usd_market_cap
          spark := sparkSteps.map fun i =>
            (pyGet m.usd).getD 0 / sparkDenom (pyGetOr0 m.usd_24h_change) i } ∧
    ((m.usd_24h_change = PyField.null ∨ m.usd_24h_change = PyField.missing) →
      pyGetOr0 m.usd_24h_change = 0) ∧
    (m.usd = PyField.missing → (pyGet m.usd).getD 0 = 0) := by
  obtain ⟨q, hq⟩ : ∃ q, pyGet m.usd = some q := by
    cases hm : m.usd with
    | null => exact absurd hm husd
    | missing => exact ⟨0, rfl⟩
    | val x => exact ⟨x, rfl⟩
  have hgetD : (pyGet m.usd).getD 0 = q := by rw [hq]; rfl
  have hmem : ∀ i ∈ sparkSteps, sparkDenom (pyGetOr0 m.usd_24h_change) i ≠ 0 :=
    fun i hi => hden i (mem_sparkSteps_le hi)
  have hspark := synthRun_of_nonzero q (pyGetOr0 m.usd_24h_change) sparkSteps hmem
  refine ⟨?_, ?_, ?_⟩
  · simp [processEntry, hq, synthesize_sparkline, hspark, hgetD]
  · intro h
    rcases h with h | h <;> simp [pyGetOr0, h]
  · intro h
    simp [pyGet, h]

/-- Witness for C5's amended statement: an entry with `usd` missing and
`usd_24h_change` null normalizes to a row with `last_price = 0` and
`change_pct = 0`. -/
theorem C5_amended_field_defaults_witness :
    processEntry "ada" ⟨.missing, .null, .null, .missing⟩ =
      some
        { id := "ada"
          ticker := "ada".toUpper
          last_price := (pyGet PyField.missing).getD 0
          change_pct := pyGetOr0 PyField.null
          volume := pyGetOr0 PyField.null
          market_cap := pyGetOr0 PyField.missing
          spark := sparkSteps.map fun i =>
            (pyGet PyField.missing).getD 0 / sparkDenom (pyGetOr0 PyField.null) i } ∧
    ((PyField.null = PyField.null ∨ PyField.null = PyField.missing) →
      pyGetOr0 PyField.null = 0) ∧
    (PyField.missing = PyField.missing → (pyGet PyField.missing).getD 0 = 0) :=
  C5_amended_field_defaults "ada" ⟨.missing, .null, .null, .missing⟩
    (by decide)
    (by
      intro i hi
      norm_num [sparkDenom, pyGetOr0])

/-- C8: two calls through the TTL cache with identical arguments within
the TTL window issue exactly one underlying network call (the first
fetches, the second does not) and observe the same cached value; a call
issued once the TTL has elapsed triggers a fresh underlying fetch whose
result replaces the cached entry.  The TTL classes of the two operations
are 60 time-units (live snapshot) and 3600 (historical chart). -/
theorem C8_cache_ttl_memoization (ttl : ℕ) (κ α : Type) [DecidableEq κ]
    (oracle : κ → ℕ → α) (s0 : List (κ × CacheEntry α)) (k : κ) (t1 t2 t3 : ℕ)
    (h0 : lookupKey s0 k = none)
    (hin : t2 - t1 < ttl) (hout : ttl ≤ t3 - t1) :
    (cachedCall ttl oracle s0 k t1).networkCall = true ∧
    (cachedCall ttl oracle (cachedCall ttl oracle s0 k t1).store k t2).networkCall =
      false ∧
    (cachedCall ttl oracle (cachedCall ttl oracle s0 k t1).store k t2).value =
      (cachedCall ttl oracle s0 k t1).value ∧
    (cachedCall ttl oracle (cachedCall ttl oracle s0 k t1).store k t3).networkCall =
      true ∧
    lookupKey (cachedCall ttl oracle (cachedCall ttl oracle s0 k t1).store k t3).store
      k = some ⟨oracle k t3, t3⟩ ∧
    liveTTL = 60 ∧ histTTL = 3600 := by
  have hc1 : cachedCall ttl oracle s0 k t1 =
      ⟨oracle k t1, (k, ⟨oracle k t1, t1⟩) :: s0, true⟩ := by
    simp [cachedCall, h0]
  have hnotlt : ¬ t3 - t1 < ttl := not_lt.mpr hout
  rw [hc1]
  refine ⟨rfl, ?_, ?_, ?_, ?_, rfl, rfl⟩ <;>
    simp [cachedCall, lookupKey, hin, hnotlt]

/-- Witness for C8 with the live snapshot's TTL of 60: first call at time
0 fetches, a second at time 59 is served from the cache, a call at time
60 fetches afresh and replaces the entry. -/
theorem C8_cache_ttl_memoization_witness :
    (cachedCall liveTTL (fun (k t : ℕ) => k + t) [] 7 0).networkCall = true ∧
    (cachedCall liveTTL (fun (k t : ℕ) => k + t)
      (cachedCall liveTTL (fun (k t : ℕ) => k + t) [] 7 0).store 7 59).networkCall =
      false ∧
    (cachedCall liveTTL (fun (k t : ℕ) => k + t)
      (cachedCall liveTTL (fun (k t : ℕ) => k + t) [] 7 0).store 7 59).value =
      (cachedCall liveTTL (fun (k t : ℕ) => k + t) [] 7 0).value ∧
    (cachedCall liveTTL (fun (k t : ℕ) => k + t)
      (cachedCall liveTTL (fun (k t : ℕ) => k + t) [] 7 0).store 7 60).networkCall =
      true ∧
    lookupKey (cachedCall liveTTL (fun (k t : ℕ) => k + t)
      (cachedCall liveTTL (fun (k t : ℕ) => k + t) [] 7 0).store 7 60).store 7 =
      some ⟨7 + 60, 60⟩ ∧
    liveTTL = 60 ∧ histTTL = 3600 :=
  C8_cache_ttl_memoization liveTTL ℕ ℕ (fun k t => k + t) [] 7 0 59 60
    rfl (by decide) (by decide)

/-- C9: snapshot normalization is all-or-nothing — if processing any
single entry of the payload raises (a null `usd`, or a `change_pct` of
-100 zeroing the sparkline denominator), `fetch_live_prices` returns the
empty table, discarding every other instrument's row. -/
theorem C9_snapshot_all_or_nothing (entries : List (String × Metrics))
    (tick : String) (m : Metrics)
    (hmem : (tick, m) ∈ entries) (hfail : processEntry tick m = none) :
    fetch_live_prices (.ok entries) = [] := by
  simp [fetch_live_prices,
    normalize_snapshot_none_of_mem entries tick m hmem hfail]

/-- Witness for C9: a payload with one processable instrument and one
whose `change_pct = -100` raises yields the empty table, not a one-row
table. -/
theorem C9_snapshot_all_or_nothing_witness :
    fetch_live_prices
      (.ok [("eth", ⟨.val 100, .val 10, .val 1, .val 2⟩),
            ("doge", ⟨.val 50, .val (-100), .val 3, .val 4⟩)]) = [] :=
  C9_snapshot_all_or_nothing
    [("eth", ⟨.val 100, .val 10, .val 1, .val 2⟩),
     ("doge", ⟨.val 50, .val (-100), .val 3, .val 4⟩)]
    "doge" ⟨.val 50, .val (-100), .val 3, .val 4⟩
    (by simp)
    (by simp [processEntry, pyGet, pyGetOr0, synthesize_sparkline_neg100])

end CryptoDash
